import Mathlib

/-!
Shallow embedding of the OpenNovel pipeline orchestrator and context
assembler, verified against the natural-language specification.

Python strings are modelled as lists of Unicode code points
(so that len, slicing and strip correspond to List.length, take. drop
and dropWhile), Python floats carrying review scores as rationals, and
the SQLite outline table for a fixed novel as the list of chapter
numbers that have an outline row.
-/

set_option maxRecDepth 40000

/-- A Python string, modelled as its list of Unicode code points. -/
abbrev PyStr := List Char

/-- Convert a Lean string literal to the PyStr model. -/
def strL (s : String) : PyStr := s.toList

/-- Decimal rendering of a natural number, as used by Python f-strings. -/
def natL (n : ℕ) : PyStr := (toString n).toList

/-- The two-newline separator used between context sections. -/
def nl2 : PyStr := strL "\n\n"

/-- Whitespace predicate backing the Python str.strip model (ASCII
whitespace plus the ideographic space; the repository only strips the
ASCII cases in practice). -/
def pyIsSpace (c : Char) : Bool :=
  c = ' ' || c = '\t' || c = '\n' || c = '\r' || c = '\x0b' || c = '\x0c' || c = '　'

/-- Python str.strip(): drop leading and trailing whitespace. -/
def pyStrip (s : PyStr) : PyStr :=
  ((s.dropWhile pyIsSpace).reverse.dropWhile pyIsSpace).reverse

/-- Python "\n\n".join(sections). -/
def joinSections (sections : List PyStr) : PyStr :=
  List.intercalate nl2 sections

/-- Python "\n".join(lines), used inside each rendered section. -/
def joinNl (lines : List PyStr) : PyStr :=
  List.intercalate (strL "\n") lines

-- ---------------------------------------------------------------------------
-- MemoryRetriever._trim_context  (src/memory/memory_retriever.py lines 119-132)
-- ---------------------------------------------------------------------------

/-- The accumulation loop of MemoryRetriever._trim_context: walk the section
list; a section that still fits (with its two-newline separator) is appended
whole; at the first section that does not fit, append a prefix of it plus an
ellipsis marker when more than 50 budget characters remain, then stop. -/
def trimGo (budget : ℕ) : List PyStr → PyStr → PyStr
  | [], result => result
  | s :: rest, result =>
    if result.length + s.length + 2 ≤ budget then
      trimGo budget rest (result ++ s ++ nl2)
    else
      let remaining := budget - result.length
      if remaining > 50 then
        result ++ s.take (remaining - 3) ++ strL "..."
      else
        result

/-- MemoryRetriever._trim_context: greedy trim of the section list to the
character budget, followed by the final str.strip(). -/
def trim_context (sections : List PyStr) (max_chars : ℕ) : PyStr :=
  pyStrip (trimGo max_chars sections [])

-- ---------------------------------------------------------------------------
-- MemoryRetriever.assemble_context  (src/memory/memory_retriever.py lines 28-117)
-- ---------------------------------------------------------------------------

/-- One chapter-summary item as returned by the vector store. -/
structure SummaryItem where
  chapter_number : ℕ
  summary : PyStr
deriving DecidableEq

/-- A character row joined with its status and role enum values. -/
structure CharacterCard where
  name : PyStr
  role : String
  status : String
  description : PyStr
deriving DecidableEq

/-- An unresolved plot-event row. -/
structure PlotEventRow where
  importance : String
  description : PyStr
  chapter_number : ℕ
deriving DecidableEq

/-- A world-setting row. -/
structure WorldSettingRow where
  name : PyStr
  description : PyStr
deriving DecidableEq

/-- The five independent data sources read by assemble_context, plus the
per-character latest-state map from the vector store. -/
structure MemoryInputs where
  recent : List SummaryItem
  relevant : List SummaryItem
  characters : List CharacterCard
  states : List (PyStr × PyStr)
  events : List PlotEventRow
  world : List WorldSettingRow
deriving DecidableEq

/-- One summary line: f-string of the chapter number and summary text. -/
def chapterLine (it : SummaryItem) : PyStr :=
  strL "第" ++ natL it.chapter_number ++ strL "章：" ++ it.summary

/-- Section 1: recent chapter summaries. -/
def render_recent (items : List SummaryItem) : PyStr :=
  joinNl (strL "【近期章节回顾】" :: items.map chapterLine)

/-- Stable insertion by chapter number, modelling Python list.sort with a
chapter-number key (equal keys keep their relative order). -/
def insertByChapter (x : SummaryItem) : List SummaryItem → List SummaryItem
  | [] => [x]
  | y :: ys =>
    if x.chapter_number ≤ y.chapter_number then x :: y :: ys
    else y :: insertByChapter x ys

/-- Stable sort by chapter number, modelling relevant.sort(key=...). -/
def sortByChapter (l : List SummaryItem) : List SummaryItem :=
  l.foldr insertByChapter []

/-- Section 2: semantically relevant earlier summaries, re-sorted by
chapter number for readability. -/
def render_relevant (items : List SummaryItem) : PyStr :=
  joinNl (strL "【相关前文回顾】" :: (sortByChapter items).map chapterLine)

/-- Role label map used in the character-state section; missing roles get an
empty label. -/
def roleLabel (role : String) : PyStr :=
  if role = "protagonist" then strL "主角"
  else if role = "antagonist" then strL "反派"
  else if role = "supporting" then strL "配角"
  else if role = "minor" then strL "路人"
  else []

/-- One character-state line: name, role label, truncated description and
truncated latest state (or the initial-state placeholder). -/
def charLine (states : List (PyStr × PyStr)) (c : CharacterCard) : PyStr :=
  let state_text :=
    match states.lookup c.name with
    | some st => st
    | none => strL "初始状态"
  strL "- " ++ c.name ++ strL "（" ++ roleLabel c.role ++ strL "）：" ++
    c.description.take 100 ++ strL "。当前：" ++ state_text.take 100

/-- Section 3: active character states (inactive characters are skipped, but
the section exists whenever the character list is non-empty). -/
def render_characters (chars : List CharacterCard) (states : List (PyStr × PyStr)) : PyStr :=
  joinNl (strL "【主要角色状态】" ::
    (chars.filter (fun c => c.status = "active")).map (charLine states))

/-- Importance label map for plot events; missing importances get an empty
label. -/
def importanceLabel (imp : String) : PyStr :=
  if imp = "critical" then strL "关键"
  else if imp = "major" then strL "重要"
  else if imp = "normal" then strL "普通"
  else if imp = "minor" then strL "次要"
  else []

/-- One unresolved-plot-thread line. -/
def eventLine (e : PlotEventRow) : PyStr :=
  strL "- [" ++ importanceLabel e.importance ++ strL "] " ++ e.description ++
    strL "（第" ++ natL e.chapter_number ++ strL "章埋下）"

/-- Section 4: unresolved plot threads. -/
def render_events (events : List PlotEventRow) : PyStr :=
  joinNl (strL "【未解决的伏笔/悬念】" :: events.map eventLine)

/-- One world-setting line with the description truncated to 80 characters. -/
def worldLine (w : WorldSettingRow) : PyStr :=
  strL "- " ++ w.name ++ strL "：" ++ w.description.take 80

/-- Section 5: world settings, capped at ten entries. -/
def render_world (ws : List WorldSettingRow) : PyStr :=
  joinNl (strL "【世界观设定】" :: (ws.take 10).map worldLine)

/-- The section list built by assemble_context: each of the five sources
contributes its rendered section exactly when the source list is non-empty,
in the fixed order recent, relevant, characters, threads, world. -/
def build_sections (inp : MemoryInputs) : List PyStr :=
  (if inp.recent = [] then [] else [render_recent inp.recent]) ++
  (if inp.relevant = [] then [] else [render_relevant inp.relevant]) ++
  (if inp.characters = [] then [] else [render_characters inp.characters inp.states]) ++
  (if inp.events = [] then [] else [render_events inp.events]) ++
  (if inp.world = [] then [] else [render_world inp.world])

/-- MemoryRetriever.assemble_context: join the sections with blank lines and
trim to the configured character budget when the joined text exceeds it. -/
def assemble_context (inp : MemoryInputs) (context_max_chars : ℕ) : PyStr :=
  let full_context := joinSections (build_sections inp)
  if full_context.length > context_max_chars then
    trim_context (build_sections inp) context_max_chars
  else
    full_context

-- ---------------------------------------------------------------------------
-- Length-bound lemmas for the context assembler
-- ---------------------------------------------------------------------------

-- ---------------------------------------------------------------------------
-- Greedy structure of the truncation (claim C5)
-- ---------------------------------------------------------------------------

/-- Greedy truncation written from the amended specification wording: keep
whole sections (with their separators) while they fit the budget; at the
first section that does not fully fit, keep a prefix of it followed by an
ellipsis marker when more than 50 characters of the budget remain, otherwise
keep nothing; drop every later section entirely. The parameter used is the
number of characters already consumed. -/
def greedy_trim (budget : ℕ) : List PyStr → ℕ → PyStr
  | [], _ => []
  | s :: rest, used =>
    if used + s.length + 2 ≤ budget then
      s ++ nl2 ++ greedy_trim budget rest (used + s.length + 2)
    else
      if budget - used > 50 then
        s.take (budget - used - 3) ++ strL "..."
      else
        []

/-- Memory inputs holding a single oversized recent summary, used to show
that the recent section is not always fully retained. -/
def trimDemoInputs : MemoryInputs :=
  ⟨[⟨1, List.replicate 200 '险'⟩], [], [], [], [], []⟩

-- ---------------------------------------------------------------------------
-- MemoryRetriever.get_previous_chapter_ending
-- (src/memory/memory_retriever.py lines 134-159)
-- ---------------------------------------------------------------------------

/-- A persisted chapter row: its number and content. -/
structure ChapterRow where
  chapter_number : ℕ
  content : PyStr
deriving DecidableEq

/-- Database.get_chapter for a fixed novel: first row with the requested
chapter number. -/
def get_chapter (chapters : List ChapterRow) (n : ℕ) : Option ChapterRow :=
  chapters.find? (fun ch => ch.chapter_number = n)

/-- The fallback branch of get_previous_chapter_ending: the source computes
the list of earlier chapters that have content and then returns the empty
string without consulting that list. -/
def previous_ending_fallback (chapters : List ChapterRow)
    (current_chapter_number : ℕ) : PyStr :=
  let earlier := chapters.filter
    (fun ch => decide (ch.chapter_number < current_chapter_number) && !ch.content.isEmpty)
  let _ := earlier
  []

/-- MemoryRetriever.get_previous_chapter_ending: empty for chapter 1 or
below; the trailing char_limit characters of the preceding chapter when that
chapter exists with content; otherwise the fallback branch. -/
def get_previous_chapter_ending (chapters : List ChapterRow)
    (current_chapter_number : ℕ) (char_limit : ℕ) : PyStr :=
  if current_chapter_number ≤ 1 then []
  else
    match get_chapter chapters (current_chapter_number - 1) with
    | some prev_chapter =>
      if !prev_chapter.content.isEmpty then
        if prev_chapter.content.length ≤ char_limit then prev_chapter.content
        else prev_chapter.content.drop (prev_chapter.content.length - char_limit)
      else
        previous_ending_fallback chapters current_chapter_number
    | none => previous_ending_fallback chapters current_chapter_number

/-- One-decimal rendering of a score that is an exact multiple of one
tenth, matching the Python .1f format on such values. -/
def fmtScore1 (q : ℚ) : String :=
  let n : ℤ := ⌊q * 10⌋
  toString (n / 10) ++ "." ++ toString (n % 10)

-- ---------------------------------------------------------------------------
-- ReviewerAgent  (src/agents/reviewer_agent.py)
-- ---------------------------------------------------------------------------

/-- CJK Unified Ideograph test used by count_chinese_chars. -/
def isChineseChar (c : Char) : Bool :=
  (0x4e00 ≤ c.toNat && c.toNat ≤ 0x9fff) || (0x3400 ≤ c.toNat && c.toNat ≤ 0x4dbf)

/-- tools.text_utils.count_chinese_chars: number of CJK ideographs in the
text. -/
def count_chinese_chars (text : PyStr) : ℕ :=
  (text.filter isChineseChar).length

/-- Helper for Python str.count: scans left to right; the skip counter
consumes the remaining characters of a match so that occurrences do not
overlap. -/
def pyCountGo (needle : PyStr) : PyStr → ℕ → ℕ
  | [], _ => 0
  | _ :: rest, skip + 1 => pyCountGo needle rest skip
  | c :: rest, 0 =>
    if needle.isPrefixOf (c :: rest) then 1 + pyCountGo needle rest (needle.length - 1)
    else pyCountGo needle rest 0

/-- Python str.count for a non-empty needle: non-overlapping occurrences. -/
def pyCount (needle s : PyStr) : ℕ := pyCountGo needle s 0

/-- Helper counting maximal runs of characters satisfying p with length at
least k, which is exactly the number of non-overlapping greedy regex matches
of a character class repeated at least k times. -/
def runCountGo (p : Char → Bool) (k : ℕ) : PyStr → ℕ → ℕ
  | [], run => if run ≥ k then 1 else 0
  | c :: rest, run =>
    if p c then runCountGo p k rest (run + 1)
    else (if run ≥ k then 1 else 0) + runCountGo p k rest 0

/-- Number of maximal runs of characters satisfying p with length at least
k. -/
def runCount (p : Char → Bool) (k : ℕ) (s : PyStr) : ℕ := runCountGo p k s 0

/-- Python content.split(chr(10)) on the PyStr model. -/
def splitNl : PyStr → List PyStr
  | [] => [[]]
  | c :: rest =>
    if c = '\n' then [] :: splitNl rest
    else
      match splitNl rest with
      | [] => [[c]]
      | p :: ps => (c :: p) :: ps

/-- Helper for the repeated-paragraph-opening check: running streak of equal
consecutive characters and the best streak seen so far. -/
def maxStreakGo : List Char → Char → ℕ → ℕ → ℕ
  | [], _, _, best => best
  | c :: rest, prev, streak, best =>
    if c = prev then maxStreakGo rest c (streak + 1) (max best (streak + 1))
    else maxStreakGo rest c 1 best

/-- Longest streak of equal consecutive characters, starting at 1 as in the
source loop. -/
def maxStreak : List Char → ℕ
  | [] => 1
  | c :: rest => maxStreakGo rest c 1 1

/-- One review issue as produced by the Reviewer. -/
structure Issue where
  category : String
  severity : String
  description : String
  suggestion : String
deriving DecidableEq

/-- The parsed JSON payload of a review: optional numeric score, issue list
and a summary line. -/
structure RawReview where
  score : Option ℚ
  issues : List Issue
  summary : String
deriving DecidableEq

/-- The AI-pattern marker list of ReviewerAgent._programmatic_review. -/
def ai_markers : List PyStr :=
  [strL "突然", strL "不由自主", strL "情不自禁", strL "此刻", strL "就在这时",
   strL "在这一刻", strL "一股强大的气息", strL "神秘的力量"]

/-- ReviewerAgent._programmatic_review: the heuristic fallback review used
when the LLM call or its JSON parse fails. Word-count, AI-marker,
punctuation and paragraph checks accumulate issues and score deductions
from a starting score of 8, and the final score is clamped to [3, 10]. -/
def programmatic_review (chapter_min_chars chapter_max_chars : ℕ)
    (content : PyStr) (char_count : ℕ) : RawReview :=
  let issues0 : List Issue := []
  let score0 : ℚ := 8
  let step1 : List Issue × ℚ :=
    if char_count < chapter_min_chars then
      let deficit := chapter_min_chars - char_count
      (issues0 ++ [⟨"字数", if deficit > 500 then "critical" else "major",
        "字数不足：" ++ toString char_count ++ "字，低于最低要求" ++
          toString chapter_min_chars ++ "字",
        "需扩写约" ++ toString deficit ++ "字"⟩],
       score0 - (if deficit > 500 then 2 else 1))
    else if char_count > chapter_max_chars then
      let excess := char_count - chapter_max_chars
      (issues0 ++ [⟨"字数", "major",
        "字数超标：" ++ toString char_count ++ "字，超过上限" ++
          toString chapter_max_chars ++ "字",
        "需精简约" ++ toString excess ++ "字"⟩],
       score0 - 1)
    else (issues0, score0)
  let step2 : List Issue × ℚ :=
    ai_markers.foldl (fun acc marker =>
      let count := pyCount marker content
      let threshold : ℕ := if marker = strL "突然" then 1 else 2
      if count > threshold then
        (acc.1 ++ [⟨"AI痕迹", if count > 3 then "major" else "minor",
          "\x27" ++ String.mk marker ++ "\x27出现" ++ toString count ++
            "次，疑似AI写作痕迹",
          "减少使用或替换为更自然的表达"⟩],
         acc.2 - (if count > 3 then (0.5 : ℚ) else (0.3 : ℚ)))
      else acc) step1
  let eng_quotes := (content.filter (fun c => c = '"' || c = '\'')).length
  let step3 : List Issue × ℚ :=
    if eng_quotes > 0 then
      (step2.1 ++ [⟨"标点", "major",
        "发现" ++ toString eng_quotes ++ "处英文引号或无方向引号，应使用中文引号“”‘’",
        "将所有英文引号替换为中文引号（左“右”必须配对）"⟩],
       step2.2 - 0.5)
    else step2
  let left_dq := content.count '“'
  let right_dq := content.count '”'
  let step4 : List Issue × ℚ :=
    if left_dq ≠ right_dq then
      (step3.1 ++ [⟨"标点", "major",
        "中文双引号不配对：左引号“" ++ toString left_dq ++ "个，右引号”" ++
          toString right_dq ++ "个",
        "检查每个对话的引号是否左右配对（“开头，”结尾）"⟩],
       step3.2 - 0.5)
    else step3
  let left_sq := content.count '‘'
  let right_sq := content.count '’'
  let step5 : List Issue × ℚ :=
    if left_sq ≠ right_sq then
      (step4.1 ++ [⟨"标点", "minor",
        "中文单引号不配对：左引号‘" ++ toString left_sq ++ "个，右引号’" ++
          toString right_sq ++ "个",
        "检查单引号是否左右配对（‘开头，’结尾）"⟩],
       step4.2 - 0.2)
    else step4
  let bad_ellipsis := runCount (fun c => c = '.') 3 content +
    runCount (fun c => c = '。') 2 content
  let step6 : List Issue × ℚ :=
    if bad_ellipsis > 0 then
      (step5.1 ++ [⟨"标点", "minor",
        "发现" ++ toString bad_ellipsis ++ "处非标准省略号，应使用\x27……\x27",
        "统一使用中文省略号\x27……\x27（六个点）"⟩],
       step5.2 - 0.2)
    else step5
  let repeated_punct := runCount (fun c => c = '！' || c = '!') 2 content +
    runCount (fun c => c = '？' || c = '?') 2 content
  let step7 : List Issue × ℚ :=
    if repeated_punct > 0 then
      (step6.1 ++ [⟨"标点", "minor",
        "发现" ++ toString repeated_punct ++ "处连续感叹号/问号",
        "每处最多使用一个感叹号或问号"⟩],
       step6.2 - 0.2)
    else step6
  let paragraphs := ((splitNl content).map pyStrip).filter (fun p => !p.isEmpty)
  let step9 : List Issue × ℚ :=
    if !paragraphs.isEmpty then
      let long_paras := (paragraphs.filter (fun p => count_chinese_chars p > 200)).length
      let step8 : List Issue × ℚ :=
        if long_paras > 2 then
          (step7.1 ++ [⟨"段落", "minor",
            "有" ++ toString long_paras ++ "个段落超过200字，段落过长影响阅读节奏",
            "拆分长段落，保持长短交替的节奏感"⟩],
           step7.2 - 0.3)
        else step7
      if paragraphs.length ≥ 3 then
        let max_streak := maxStreak (paragraphs.map (fun p => p.headD ' '))
        if max_streak ≥ 3 then
          (step8.1 ++ [⟨"段落", "minor",
            "连续" ++ toString max_streak ++ "个段落以相同字开头，句式单调",
            "变换段落开头的词语和句式"⟩],
           step8.2 - 0.3)
        else step8
      else step8
    else step7
  let final_score : ℚ := max 3 (min 10 step9.2)
  { score := some final_score,
    issues := step9.1,
    summary := "程序化审核：" ++ toString step9.1.length ++ "个问题，评分" ++
      fmtScore1 final_score }

/-- Score clamping applied to every parsed review: min(10, max(0, raw)),
with 5.0 substituted when the score key is absent. -/
def clamp_score (raw : Option ℚ) : ℚ := min 10 (max 0 (raw.getD 5))

/-- The final review record assembled by ReviewerAgent.review_chapter. -/
structure ReviewResult where
  passed : Bool
  score : ℚ
  issues : List Issue
  summary : String
deriving DecidableEq

/-- Lines 91-106 of ReviewerAgent.review_chapter: clamp the score, count
critical issues and derive the pass flag. -/
def review_outcome (result : RawReview) : ReviewResult :=
  let score := clamp_score result.score
  let critical_count := (result.issues.filter (fun i => i.severity = "critical")).length
  { passed := decide (score ≥ 6) && decide (critical_count = 0),
    score := score,
    issues := result.issues,
    summary := result.summary }

/-- ReviewerAgent.review_chapter: compute the character count when not
supplied, use the parsed LLM payload when the call and parse succeed and
the programmatic fallback otherwise, then derive the outcome. -/
def reviewer_review_chapter (chapter_min_chars chapter_max_chars : ℕ)
    (llm_result : Option RawReview) (chapter_content : PyStr)
    (char_count : Option ℕ) : ReviewResult :=
  let cc := char_count.getD (count_chinese_chars chapter_content)
  let result :=
    match llm_result with
    | some r => r
    | none => programmatic_review chapter_min_chars chapter_max_chars chapter_content cc
  review_outcome result

-- ---------------------------------------------------------------------------
-- workflow.graph.review_chapter and the edit/review loop
-- (src/workflow/graph.py lines 688-726, src/workflow/conditions.py lines 22-36)
-- ---------------------------------------------------------------------------

/-- The force-accept annotation prepended to the summary when the revision
budget is exhausted. -/
def forced_note (max_revisions : ℕ) : String :=
  "[强制通过] 已达最大修订次数(" ++ toString max_revisions ++ ")。"

/-- workflow.graph.review_chapter: on an LLMError from the agent, substitute
a forced pass with an annotated summary; then increment the revision count
and, when the result is not passed and the new count has reached
max_revisions, overwrite passed to true and annotate the summary. Returns
the review result and the new revision count. -/
def graph_review_chapter (agent_call : Except String ReviewResult)
    (revision_count max_revisions : ℕ) : ReviewResult × ℕ :=
  let result :=
    match agent_call with
    | .ok r => r
    | .error e =>
      { passed := true, score := 0, issues := [],
        summary := "[审核跳过] LLM调用失败: " ++ e }
  let rc := revision_count + 1
  if !result.passed && decide (rc ≥ max_revisions) then
    let annotated : ReviewResult :=
      { result with
        passed := true
        summary := forced_note max_revisions ++ result.summary }
    (annotated, rc)
  else
    (result, rc)

/-- workflow.conditions.route_after_review: passed goes to save, a failed
review below the revision budget goes back to edit, and a failed review at
or over the budget goes to save anyway. -/
def route_after_review (review : ReviewResult)
    (revision_count max_revisions : ℕ) : String :=
  if review.passed then "save_chapter"
  else if revision_count ≥ max_revisions then "save_chapter"
  else "edit_chapter"

/-- The edit/review loop of one chapter, driven by the conditional edge:
each iteration runs the review node on the next reviewer result and either
stops at save_chapter, returning the number of review passes executed and
the final review result, or loops back through edit_chapter. Fuel bounds
the recursion; none is returned only when fuel runs out. -/
def review_loop (reviewer : ℕ → ReviewResult) (max_revisions : ℕ) :
    ℕ → ℕ → Option (ℕ × ReviewResult)
  | 0, _ => none
  | fuel + 1, revision_count =>
    let step := graph_review_chapter (Except.ok (reviewer revision_count))
      revision_count max_revisions
    if route_after_review step.1 step.2 max_revisions = "save_chapter" then
      some (step.2, step.1)
    else
      review_loop reviewer max_revisions fuel step.2

/-- A reviewer that reports not-passed on every pass. -/
def constFailReviewer : ℕ → ReviewResult := fun _ => ⟨false, 0, [], ""⟩

-- ---------------------------------------------------------------------------
-- workflow.graph.handle_error and the graph wiring
-- (src/workflow/graph.py lines 843-869 and 876-971)
-- ---------------------------------------------------------------------------

/-- Module constant _MAX_NODE_RETRIES. -/
def MAX_NODE_RETRIES : ℕ := 2

/-- The transient-error keywords of handle_error. -/
def recoverable_keywords : List PyStr :=
  [strL "timeout", strL "rate limit", strL "connection", strL "temporary"]

/-- Python str.lower on the PyStr model. -/
def toLowerPy (s : PyStr) : PyStr := s.map Char.toLower

/-- Python substring containment (needle in haystack). -/
def pyIn (needle : PyStr) : PyStr → Bool
  | [] => needle.isEmpty
  | c :: rest => needle.isPrefixOf (c :: rest) || pyIn needle rest

/-- The keyword heuristic classifying an error message as recoverable. -/
def is_recoverable (error : PyStr) : Bool :=
  recoverable_keywords.any (fun keyword => pyIn keyword (toLowerPy error))

/-- A partial state update returned by handle_error: a field left at none is
not touched by the LangGraph merge, so the fatal branch preserves the error
field for the caller. -/
structure HandleErrorUpdate where
  error : Option PyStr
  retry_count : Option ℕ
  should_stop : Option Bool
deriving DecidableEq

/-- workflow.graph.handle_error: a recoverable error under the retry cap
clears the error, increments the retry count and leaves should_stop false;
otherwise only should_stop is set, preserving the error. -/
def handle_error (error : PyStr) (retry_count : ℕ) : HandleErrorUpdate :=
  if is_recoverable error && decide (retry_count < MAX_NODE_RETRIES) then
    { error := some [], retry_count := some (retry_count + 1), should_stop := some false }
  else
    { error := none, retry_count := none, should_stop := some true }

/-- The nodes registered in build_graph. -/
inductive WorkflowNode
  | init_node | plan_novel | load_chapter_context | retrieve_memory | write_chapter
  | edit_chapter | review_chapter | save_chapter | update_memory | global_review
  | advance_chapter | handle_error
deriving DecidableEq

/-- A graph edge target: another node or the END sentinel. -/
inductive GraphTarget
  | node (n : WorkflowNode)
  | terminal
deriving DecidableEq

/-- The unconditional edges registered by graph.add_edge in build_graph;
nodes that exit through conditional edges map to none. The handle_error
node is wired unconditionally to END. -/
def static_edge : WorkflowNode → Option GraphTarget
  | .load_chapter_context => some (.node .retrieve_memory)
  | .retrieve_memory => some (.node .write_chapter)
  | .write_chapter => some (.node .edit_chapter)
  | .edit_chapter => some (.node .review_chapter)
  | .save_chapter => some (.node .update_memory)
  | .global_review => some (.node .advance_chapter)
  | .handle_error => some .terminal
  | _ => none

-- ---------------------------------------------------------------------------
-- workflow.graph.load_chapter_context return paths
-- (src/workflow/graph.py lines 370-585)
-- ---------------------------------------------------------------------------

/-- An outline row as read back from the store. -/
structure OutlineRow where
  outline_text : String
  emotional_tone : String
  hook_type : String
deriving DecidableEq

/-- The partial state update returned by load_chapter_context. -/
structure LoadContextUpdate where
  chapter_outline : String
  emotional_tone : String
  hook_type : String
  revision_count : ℕ
  last_node : String
deriving DecidableEq

/-- Python or-default on a possibly empty string field. -/
def pyOrDefault (s dflt : String) : String := if s = "" then dflt else s

/-- workflow.graph.load_chapter_context, collapsed to its three return
paths: outline found in the store (lines 383-391), outline obtained by
on-demand generation (lines 548-556), or placeholder synthesized
(lines 579-585). The generated argument is the re-fetch after the
expansion loop, none when generation failed or no planning metadata
exists. -/
def load_chapter_context (existing : Option OutlineRow)
    (generated : Option OutlineRow) (placeholder : String) : LoadContextUpdate :=
  match existing with
  | some o =>
    ⟨o.outline_text, o.emotional_tone, pyOrDefault o.hook_type "cliffhanger",
     0, "load_chapter_context"⟩
  | none =>
    match generated with
    | some o =>
      ⟨o.outline_text, o.emotional_tone, pyOrDefault o.hook_type "cliffhanger",
       0, "load_chapter_context"⟩
    | none => ⟨placeholder, "", "cliffhanger", 0, "load_chapter_context"⟩

-- ---------------------------------------------------------------------------
-- On-demand outline expansion (src/workflow/graph.py lines 453-545)
-- ---------------------------------------------------------------------------

/-- Database.create_outline guarded by the get_outline existence check of
the persist loop, including the skip of chapter_number 0. The outline store
for a fixed novel is the list of chapter numbers holding an outline row. -/
def create_if_missing (store : List ℕ) (ch_num : ℕ) : List ℕ :=
  if ch_num = 0 then store
  else if store.contains ch_num then store
  else store ++ [ch_num]

/-- The persist loop over one generated batch of chapter outlines. -/
def persist_outline_batch (store : List ℕ) (generated : List ℕ) : List ℕ :=
  generated.foldl create_if_missing store

/-- The on-demand outline-expansion while loop: walk batches of batch_size
chapters from the needed chapter to the volume end; skip a batch whose
outlines all exist; otherwise persist the generated batch (gen maps a batch
range to the returned chapter numbers, empty on a failed call) and stop as
soon as the needed chapter has an outline. Fuel bounds the recursion, which
in the source terminates because batch_start strictly advances past
batch_end. -/
def expand_outlines_loop (gen : ℕ → ℕ → List ℕ) (current_ch vol_end batch_size : ℕ) :
    ℕ → ℕ → List ℕ → List ℕ
  | 0, _, store => store
  | fuel + 1, batch_start, store =>
    if batch_start ≤ vol_end then
      let batch_end := min (batch_start + batch_size - 1) vol_end
      let has_missing := (List.range' batch_start (batch_end + 1 - batch_start)).any
        (fun ch => !store.contains ch)
      if !has_missing then
        expand_outlines_loop gen current_ch vol_end batch_size fuel (batch_end + 1) store
      else
        let store2 := persist_outline_batch store (gen batch_start batch_end)
        if store2.contains current_ch then store2
        else expand_outlines_loop gen current_ch vol_end batch_size fuel (batch_end + 1) store2
    else store

/-- One run of the on-demand outline expansion, starting at the chapter
that is needed. -/
def expand_outlines (gen : ℕ → ℕ → List ℕ) (current_ch vol_end batch_size fuel : ℕ)
    (store : List ℕ) : List ℕ :=
  expand_outlines_loop gen current_ch vol_end batch_size fuel current_ch store

-- ===========================================================================
-- END OF DEFINITIONS
-- ===========================================================================

theorem pyStrip_length_le (s : PyStr) : (pyStrip s).length ≤ s.length := by
  have h1 : ∀ (l : List Char), (l.dropWhile pyIsSpace).length ≤ l.length := by
    intro l
    induction l with
    | nil => simp
    | cons a t ih =>
      by_cases h : pyIsSpace a
      · simp only [List.dropWhile, h]
        exact Nat.le_succ_of_le ih
      · simp [List.dropWhile, h]
  calc (pyStrip s).length
      = ((s.dropWhile pyIsSpace).reverse.dropWhile pyIsSpace).length := by
        simp [pyStrip]
    _ ≤ (s.dropWhile pyIsSpace).reverse.length := h1 _
    _ = (s.dropWhile pyIsSpace).length := by simp
    _ ≤ s.length := h1 _

theorem trimGo_length_le (budget : ℕ) (sections : List PyStr) (acc : PyStr)
    (hacc : acc.length ≤ budget) : (trimGo budget sections acc).length ≤ budget := by
  induction sections generalizing acc with
  | nil => simpa [trimGo] using hacc
  | cons s rest ih =>
    simp only [trimGo]
    by_cases hfit : acc.length + s.length + 2 ≤ budget
    · simp only [hfit, if_true]
      apply ih
      simp [List.length_append, nl2, strL]
      omega
    · simp only [hfit, if_false]
      by_cases hrem : budget - acc.length > 50
      · simp only [hrem, if_true]
        have htake : (s.take (budget - acc.length - 3)).length ≤ budget - acc.length - 3 := by
          simp
        simp [List.length_append, strL]
        omega
      · simpa [hrem] using hacc

theorem trim_context_length_le (sections : List PyStr) (max_chars : ℕ) :
    (trim_context sections max_chars).length ≤ max_chars := by
  calc (trim_context sections max_chars).length
      ≤ (trimGo max_chars sections []).length := pyStrip_length_le _
    _ ≤ max_chars := trimGo_length_le _ _ _ (by simp)

/-- C4: For every combination of memory inputs, the context string returned
by the Context Assembler has length at most the configured context_max_chars
character budget. -/
theorem assemble_context_within_budget (inp : MemoryInputs) (context_max_chars : ℕ) :
    (assemble_context inp context_max_chars).length ≤ context_max_chars := by
  unfold assemble_context
  by_cases h : (joinSections (build_sections inp)).length > context_max_chars
  · simpa [h] using trim_context_length_le (build_sections inp) context_max_chars
  · simpa [h] using Nat.le_of_not_lt h

theorem trimGo_eq_greedy (budget : ℕ) (sections : List PyStr) (acc : PyStr) :
    trimGo budget sections acc = acc ++ greedy_trim budget sections acc.length := by
  induction sections generalizing acc with
  | nil => simp [trimGo, greedy_trim]
  | cons s rest ih =>
    simp only [trimGo, greedy_trim]
    by_cases hfit : acc.length + s.length + 2 ≤ budget
    · simp only [hfit, if_true]
      rw [ih]
      have h2 : nl2.length = 2 := rfl
      have hlen : (acc ++ s ++ nl2).length = acc.length + s.length + 2 := by
        simp only [List.length_append]
        omega
      rw [hlen]
      simp [List.append_assoc]
    · by_cases hrem : budget - acc.length > 50 <;> simp [hfit, hrem]

/-- C5 (amended): on truncation, whole sections are kept greedily in the
fixed priority order recent, relevant, characters, threads, world; the first
section that does not fully fit is kept as a prefix with an ellipsis marker
only when more than 50 characters of the budget remain, otherwise it and
everything after it are dropped; the recent-summary section is fully
retained (up to the final whitespace strip) whenever it fits within the
budget, but is itself truncated or dropped when it alone exceeds the
budget. -/
theorem trim_context_greedy_structure (s0 : PyStr) (rest : List PyStr) (budget : ℕ) :
    trim_context (s0 :: rest) budget = pyStrip (greedy_trim budget (s0 :: rest) 0)
    ∧ (s0.length + 2 ≤ budget →
        ∃ t, greedy_trim budget (s0 :: rest) 0 = s0 ++ nl2 ++ t) := by
  constructor
  · unfold trim_context
    rw [trimGo_eq_greedy]
    simp
  · intro hfit
    refine ⟨greedy_trim budget rest (0 + s0.length + 2), ?_⟩
    have h0 : 0 + s0.length + 2 ≤ budget := by omega
    simp only [greedy_trim]
    rw [if_pos h0]

theorem trim_context_greedy_structure_witness :
    trim_context [strL "aaaa", strL "bb"] 20 = pyStrip (greedy_trim 20 [strL "aaaa", strL "bb"] 0)
    ∧ ∃ t, greedy_trim 20 [strL "aaaa", strL "bb"] 0 = strL "aaaa" ++ nl2 ++ t :=
  ⟨(trim_context_greedy_structure (strL "aaaa") [strL "bb"] 20).1,
   (trim_context_greedy_structure (strL "aaaa") [strL "bb"] 20).2 (by decide)⟩

/-- C5 counterexample: with one recent summary of 200 characters and a
budget of 100, the assembled context exceeds the budget, the recent section
is non-empty, and the assembler output is strictly shorter than the recent
section, so the recent-summary section is not fully retained. -/
theorem recent_section_truncated_when_over_budget :
    (joinSections (build_sections trimDemoInputs)).length > 100
    ∧ trimDemoInputs.recent ≠ []
    ∧ (assemble_context trimDemoInputs 100).length <
        (render_recent trimDemoInputs.recent).length := by decide

/-- C3: the fallback is dead code. With only chapter 1 written (non-empty
content) and chapter 2 absent, asking for the ending before chapter 3
returns the empty string even though an earlier chapter with content exists,
contradicting the function docstring and the specification. -/
theorem previous_ending_fallback_returns_empty :
    get_previous_chapter_ending [⟨1, strL "他走入夜色之中"⟩] 3 500 = []
    ∧ (∃ ch ∈ [ChapterRow.mk 1 (strL "他走入夜色之中")],
        ch.chapter_number < 3 ∧ ch.content ≠ []) := by decide


/-- C10: the score placed in the review result is min(10, max(0, raw)),
defaulting to 5.0 when absent, so the persisted score and the pass decision
never observe a value outside [0, 10]. -/
theorem review_score_clamped_to_range (result : RawReview) :
    (review_outcome result).score = min 10 (max 0 (result.score.getD 5))
    ∧ 0 ≤ (review_outcome result).score
    ∧ (review_outcome result).score ≤ 10 := by
  have h : (review_outcome result).score = min 10 (max 0 (result.score.getD 5)) := rfl
  refine ⟨h, ?_, ?_⟩
  · rw [h]
    exact le_min (by norm_num) (le_max_left 0 _)
  · rw [h]
    exact min_le_left _ _

theorem review_outcome_passed_false_of_critical (r : RawReview) (i : Issue)
    (hmem : i ∈ r.issues) (hsev : i.severity = "critical") :
    (review_outcome r).passed = false := by
  have hne : r.issues.filter (fun j => j.severity = "critical") ≠ [] := by
    intro hnil
    have : i ∈ r.issues.filter (fun j => j.severity = "critical") := by
      simp [List.mem_filter, hmem, hsev]
    rw [hnil] at this
    exact absurd this (List.not_mem_nil i)
  have hlen : (r.issues.filter (fun j => j.severity = "critical")).length ≠ 0 := by
    simpa [List.length_eq_zero] using hne
  simp [review_outcome, hlen]

/-- C6 (amended): the review passes exactly when the clamped score is at or
above the fixed threshold 6.0 and no reported issue has critical severity. -/
theorem passed_iff_score_ge_threshold_and_no_critical (result : RawReview) :
    (review_outcome result).passed = true ↔
      (6 ≤ clamp_score result.score ∧ ∀ i ∈ result.issues, i.severity ≠ "critical") := by
  simp only [review_outcome, Bool.and_eq_true, decide_eq_true_eq, ge_iff_le,
    List.length_eq_zero, List.filter_eq_nil_iff]

/-- C6 counterexample: at a raw score of exactly 6.0 with no issues the code
reports passed = true although the score is not strictly above the
threshold 6.0, so passing requires only being at the threshold, not above
it. -/
theorem passed_at_exact_threshold :
    (review_outcome ⟨some 6, [], ""⟩).passed = true
    ∧ ¬ (6 < (review_outcome ⟨some 6, [], ""⟩).score) := by
  have hs : clamp_score (some 6) = 6 := by
    unfold clamp_score
    norm_num
  constructor
  · simp [review_outcome, clamp_score]
    norm_num
  · have h : (review_outcome ⟨some 6, [], ""⟩).score = clamp_score (some 6) := rfl
    rw [h, hs]
    norm_num

/-- C7 (amended): when the reviewer LLM call or its structured-output parse
fails, the agent substitutes the programmatic heuristic review, whose
outcome may be passed or not passed; the unconditional fail-open pass with
the annotated skip summary happens only at the workflow level when the
reviewer agent itself raises an LLMError. -/
theorem reviewer_failure_fallback_behavior (chapter_min_chars chapter_max_chars : ℕ)
    (content : PyStr) (char_count : Option ℕ) (e : String) (rc maxRev : ℕ) :
    reviewer_review_chapter chapter_min_chars chapter_max_chars none content char_count =
      review_outcome (programmatic_review chapter_min_chars chapter_max_chars content
        (char_count.getD (count_chinese_chars content)))
    ∧ (graph_review_chapter (Except.error e) rc maxRev).1.passed = true
    ∧ (graph_review_chapter (Except.error e) rc maxRev).1.summary =
        "[审核跳过] LLM调用失败: " ++ e := by
  refine ⟨rfl, ?_, ?_⟩ <;> simp [graph_review_chapter]

/-- C7 counterexample: with an empty chapter and the default character
bounds, a failed reviewer call produces the programmatic fallback review,
which reports a critical word-count issue and hence passed = false, not the
fail-open pass the claim describes. -/
theorem reviewer_fallback_can_fail :
    (reviewer_review_chapter 2050 3000 none [] none).passed = false := by
  have heq : reviewer_review_chapter 2050 3000 none [] none =
      review_outcome (programmatic_review 2050 3000 [] 0) := rfl
  rw [heq]
  refine review_outcome_passed_false_of_critical _
    ⟨"字数", "critical", "字数不足：0字，低于最低要求2050字", "需扩写约2050字"⟩ ?_ rfl
  decide

theorem review_loop_fail_aux (reviewer : ℕ → ReviewResult) (max_revisions : ℕ)
    (hfail : ∀ k, (reviewer k).passed = false) :
    ∀ fuel rc, rc < max_revisions → max_revisions ≤ fuel + rc →
      review_loop reviewer max_revisions fuel rc =
        some (max_revisions,
          { reviewer (max_revisions - 1) with
            passed := true
            summary := forced_note max_revisions ++ (reviewer (max_revisions - 1)).summary }) := by
  intro fuel
  induction fuel with
  | zero => intro rc h1 h2; omega
  | succ n ih =>
    intro rc h1 h2
    by_cases hreach : rc + 1 ≥ max_revisions
    · have hrc : rc = max_revisions - 1 := by omega
      subst hrc
      have hone : max_revisions - 1 + 1 = max_revisions := by omega
      have hstep : graph_review_chapter (Except.ok (reviewer (max_revisions - 1)))
          (max_revisions - 1) max_revisions =
          ({ reviewer (max_revisions - 1) with
             passed := true
             summary := forced_note max_revisions ++ (reviewer (max_revisions - 1)).summary },
           max_revisions) := by
        unfold graph_review_chapter
        simp only [hfail, Bool.not_false, Bool.true_and]
        rw [decide_eq_true hreach]
        simp [hone]
      simp only [review_loop, hstep, route_after_review]
      simp
    · have hstep : graph_review_chapter (Except.ok (reviewer rc)) rc max_revisions =
          (reviewer rc, rc + 1) := by
        unfold graph_review_chapter
        simp only [hfail, Bool.not_false, Bool.true_and]
        rw [decide_eq_false hreach]
        simp
      simp only [review_loop, hstep, route_after_review, hfail]
      rw [if_neg hreach]
      simp only [Bool.false_eq_true, if_false]
      rw [if_neg (by simp)]
      exact ih (rc + 1) (by omega) (by omega)

/-- C1 (amended): if the Reviewer reports not-passed on every review pass
and max_revisions is at least 1 (the Settings validator enforces this), the
edit/review loop for the chapter executes exactly max_revisions review
passes, after which it is routed to SAVE with the review result force
overwritten to passed = true and the summary annotated as a forced
accept. -/
theorem review_loop_force_accept_pass_count (reviewer : ℕ → ReviewResult)
    (max_revisions : ℕ) (hpos : 1 ≤ max_revisions)
    (hfail : ∀ k, (reviewer k).passed = false) :
    ∃ final : ReviewResult,
      review_loop reviewer max_revisions (max_revisions + 1) 0 = some (max_revisions, final)
      ∧ final.passed = true
      ∧ ∃ s, final.summary = forced_note max_revisions ++ s := by
  refine ⟨{ reviewer (max_revisions - 1) with
            passed := true
            summary := forced_note max_revisions ++ (reviewer (max_revisions - 1)).summary },
    ?_, rfl, ⟨(reviewer (max_revisions - 1)).summary, rfl⟩⟩
  exact review_loop_fail_aux reviewer max_revisions hfail (max_revisions + 1) 0
    (by omega) (by omega)

theorem review_loop_force_accept_pass_count_witness :
    ∃ final : ReviewResult,
      review_loop constFailReviewer 3 4 0 = some (3, final)
      ∧ final.passed = true
      ∧ ∃ s, final.summary = forced_note 3 ++ s :=
  review_loop_force_accept_pass_count constFailReviewer 3 (by decide) (fun _ => rfl)

/-- C1 counterexample: with the default max_revisions = 3 and a reviewer
that always reports not-passed, the loop executes exactly 3 review passes
before saving, not max_revisions + 1 = 4 as the claim states. -/
theorem review_loop_three_passes_not_four :
    (review_loop constFailReviewer 3 10 0).map Prod.fst = some 3
    ∧ (3 : ℕ) ≠ 3 + 1 := by
  constructor
  · rfl
  · decide

/-- C2: workflow.graph.handle_error classifies a connection timeout with
retry count 0 as recoverable and emits the resume-ready update (error
cleared, retry count incremented, should_stop false), yet build_graph wires
the handle_error node unconditionally to END, so the run never resumes; a
non-transient error only sets should_stop, preserving the error field. -/
theorem handle_error_recoverable_dead_end :
    handle_error (strL "connection timeout") 0 =
      { error := some [], retry_count := some 1, should_stop := some false }
    ∧ static_edge WorkflowNode.handle_error = some GraphTarget.terminal
    ∧ handle_error (strL "invalid input") 0 =
      { error := none, retry_count := none, should_stop := some true } := by
  refine ⟨?_, rfl, ?_⟩ <;> decide

/-- C9: every return path of LOAD_CHAPTER_CONTEXT (outline found, outline
generated on demand, placeholder synthesized) resets revision_count to 0. -/
theorem load_chapter_context_resets_revision_count (existing generated : Option OutlineRow)
    (placeholder : String) :
    (load_chapter_context existing generated placeholder).revision_count = 0 := by
  cases existing <;> cases generated <;> rfl

theorem mem_create_if_missing (store : List ℕ) (a ch : ℕ) :
    ch ∈ create_if_missing store a ↔ ch ∈ store ∨ (ch = a ∧ a ≠ 0) := by
  unfold create_if_missing
  by_cases h0 : a = 0
  · simp [h0]
  · by_cases hmem : a ∈ store
    · rw [if_neg h0, if_pos (List.elem_iff.mpr hmem)]
      constructor
      · exact Or.inl
      · rintro (h | ⟨rfl, -⟩)
        · exact h
        · exact hmem
    · rw [if_neg h0, if_neg (fun hc => hmem (List.elem_iff.mp hc))]
      simp [h0, List.mem_append]

theorem nodup_create_if_missing (store : List ℕ) (a : ℕ) (h : store.Nodup) :
    (create_if_missing store a).Nodup := by
  unfold create_if_missing
  by_cases h0 : a = 0
  · simpa [h0]
  · by_cases hmem : a ∈ store
    · rw [if_neg h0, if_pos (List.elem_iff.mpr hmem)]
      exact h
    · rw [if_neg h0, if_neg (fun hc => hmem (List.elem_iff.mp hc)),
        ← List.concat_eq_append]
      exact List.Nodup.concat hmem h

theorem nodup_persist_outline_batch (store generated : List ℕ)
    (h : store.Nodup) : (persist_outline_batch store generated).Nodup := by
  induction generated generalizing store with
  | nil => simpa [persist_outline_batch]
  | cons a rest ih =>
    simp only [persist_outline_batch, List.foldl_cons]
    exact ih _ (nodup_create_if_missing store a h)

theorem mem_persist_outline_batch (store generated : List ℕ) (ch : ℕ) :
    ch ∈ persist_outline_batch store generated ↔
      ch ∈ store ∨ (ch ∈ generated ∧ ch ≠ 0) := by
  induction generated generalizing store with
  | nil => simp [persist_outline_batch]
  | cons a rest ih =>
    simp only [persist_outline_batch, List.foldl_cons] at ih ⊢
    rw [ih (create_if_missing store a), mem_create_if_missing]
    constructor
    · rintro ((h | ⟨rfl, ha⟩) | ⟨hr, hch⟩)
      · exact Or.inl h
      · exact Or.inr ⟨List.mem_cons_self _ _, ha⟩
      · exact Or.inr ⟨List.mem_cons_of_mem _ hr, hch⟩
    · rintro (h | ⟨hmem, hch⟩)
      · exact Or.inl (Or.inl h)
      · rcases List.mem_cons.mp hmem with rfl | hr
        · exact Or.inl (Or.inr ⟨rfl, hch⟩)
        · exact Or.inr ⟨hr, hch⟩

theorem nodup_expand_loop (gen : ℕ → ℕ → List ℕ) (current vol_end bs : ℕ) :
    ∀ fuel start store, List.Nodup store →
      (expand_outlines_loop gen current vol_end bs fuel start store).Nodup := by
  intro fuel
  induction fuel with
  | zero =>
    intro start store h
    simpa [expand_outlines_loop]
  | succ n ih =>
    intro start store h
    simp only [expand_outlines_loop]
    split
    · split
      · exact ih _ _ h
      · split
        · exact nodup_persist_outline_batch _ _ h
        · exact ih _ _ (nodup_persist_outline_batch _ _ h)
    · exact h

/-- C8: the on-demand outline expansion creates no duplicate chapter rows:
starting from a duplicate-free outline store, one run and a second run over
the same chapter range leave the store duplicate-free, and the persist loop
adds a row exactly for generated chapter numbers that are non-zero and have
no existing row. -/
theorem outline_expansion_no_duplicate_rows
    (gen gen2 : ℕ → ℕ → List ℕ) (current vol_end batch_size fuel fuel2 : ℕ)
    (store : List ℕ) (h : store.Nodup) :
    (expand_outlines gen current vol_end batch_size fuel store).Nodup
    ∧ (expand_outlines gen2 current vol_end batch_size fuel2
        (expand_outlines gen current vol_end batch_size fuel store)).Nodup
    ∧ ∀ generated ch, ch ∈ persist_outline_batch store generated ↔
        ch ∈ store ∨ (ch ∈ generated ∧ ch ≠ 0) := by
  refine ⟨?_, ?_, ?_⟩
  · exact nodup_expand_loop gen current vol_end batch_size fuel current store h
  · exact nodup_expand_loop gen2 current vol_end batch_size fuel2 current _
      (nodup_expand_loop gen current vol_end batch_size fuel current store h)
  · intro generated ch
    exact mem_persist_outline_batch store generated ch

theorem outline_expansion_no_duplicate_rows_witness :
    (expand_outlines (fun a _ => [a, a + 1]) 2 6 2 9 [1]).Nodup
    ∧ (expand_outlines (fun a _ => [a, a + 1]) 2 6 2 9
        (expand_outlines (fun a _ => [a, a + 1]) 2 6 2 9 [1])).Nodup
    ∧ ∀ generated ch, ch ∈ persist_outline_batch [1] generated ↔
        ch ∈ [1] ∨ (ch ∈ generated ∧ ch ≠ 0) :=
  outline_expansion_no_duplicate_rows (fun a _ => [a, a + 1]) (fun a _ => [a, a + 1])
    2 6 2 9 9 [1] (by decide)
